import Mathlib

/-!
# Auric Shield Activator — verification of the core decision logic

Shallow embedding of `src/main.js`: the choice-tracking state (`state`),
the sigil generator (`generateSigil`), the composite synchronizer
(`updateShieldVisuals`), the completion check (`checkConstructionComplete`)
and the DOM event handlers, modelled as a step function on an explicit
state record.  Numbers that JavaScript holds as doubles are modelled as
exact rationals (all constants in the source are exactly representable);
the trigonometric point coordinates are real-valued.
-/

namespace AuricShield

/-- JavaScript remainder `a % b` for `b > 0`: truncated remainder, sign of
the dividend (`(-33) % 10 = -3`).  Lean's `Int.emod` is Euclidean, so the
negative-dividend case is written out explicitly. -/
def jsRem (a b : Int) : Int :=
  if 0 ≤ a then a % b else -((-a) % b)

/-- Model of `word.toUpperCase().split('')` in `generateSigil` (line 205):
the characters of the input, uppercased, in original order. -/
def sigilChars (word : String) : List Char :=
  word.toList.map Char.toUpper

/-- Model of `String.prototype.trim`: strip leading and trailing whitespace.
Modelled on the character list (space, tab, carriage return, line feed —
the code points the inputs of interest use). -/
def jsTrim (word : String) : String :=
  ⟨((word.toList.dropWhile Char.isWhitespace).reverse.dropWhile
      Char.isWhitespace).reverse⟩

/-- The blank-input guard of `generateSigil` (line 203):
`if(!word || word.trim() === '') return;`. -/
def blankWord (word : String) : Bool :=
  word == "" || jsTrim word == ""

/-- Value `char.charCodeAt(0) - 65` (line 207): the character's derived value,
possibly negative or large for non-letters. -/
def sigilCharCode (c : Char) : Int :=
  (c.toNat : Int) - 65

/-- The radius of the point for character `c` (line 209):
`(width / 2 - 10) * ((charCode % 10) / 10 * 0.5 + 0.5)`. -/
def sigilRadius (width : ℚ) (c : Char) : ℚ :=
  (width / 2 - 10) * ((jsRem (sigilCharCode c) 10 : ℚ) / 10 * (1/2) + 1/2)

/-- The angle of the point at index `i` of `n` characters (line 208):
`(index / chars.length) * Math.PI * 2`. -/
noncomputable def sigilAngle (i n : ℕ) : ℝ :=
  ((i : ℝ) / (n : ℝ)) * (Real.pi * 2)

/-- A 2D point on the sigil canvas. -/
structure Point where
  x : ℝ
  y : ℝ

/-- The point generated for the character `c` at index `i` of `n`
(lines 207–212): the canvas centre offset by
`(cos(angle)·radius, sin(angle)·radius)`. -/
noncomputable def sigilPoint (width height : ℚ) (n i : ℕ) (c : Char) : Point :=
  ⟨(width : ℝ) / 2 + Real.cos (sigilAngle i n) * (sigilRadius width c : ℝ),
   (height : ℝ) / 2 + Real.sin (sigilAngle i n) * (sigilRadius width c : ℝ)⟩

/-- A generated glyph.  The drawn polyline is a deterministic function of
the (uppercased) character sequence, so the glyph is represented by that
sequence; `Glyph.points` below recovers the point list the source draws. -/
structure Glyph where
  chars : List Char
  deriving DecidableEq, Repr

/-- The ordered point sequence of the glyph (lines 206–213): one point per
character, in input order. -/
noncomputable def Glyph.points (width height : ℚ) (g : Glyph) : List Point :=
  g.chars.mapIdx (fun i c => sigilPoint width height g.chars.length i c)

/-- The `i`-th drawn point of the glyph (total accessor: out-of-range
indices return the origin, which no theorem relies on). -/
noncomputable def Glyph.pointAt (width height : ℚ) (g : Glyph) (i : ℕ) :
    Point :=
  (g.points width height).getD i ⟨0, 0⟩

/-- Whether the drawn path is closed back to the first point (lines
220–222): `if (points.length > 2) ctx.closePath();`. -/
def Glyph.closed (g : Glyph) : Bool :=
  g.chars.length > 2

/-- Number of straight segments drawn: `lineTo` for indices `1..n-1`
(lines 217–219) plus one closing segment when the path is closed. -/
def Glyph.segments (g : Glyph) : ℕ :=
  (g.chars.length - 1) + (if g.closed then 1 else 0)

/-- The glyph drawn by `generateSigil` (lines 197–223): the canvas is
cleared first, and a blank or whitespace-only word leaves it empty (zero
points); otherwise one point per uppercased character is drawn. -/
def generateSigilGlyph (word : String) : Glyph :=
  if blankWord word then ⟨[]⟩ else ⟨sigilChars word⟩

/-- Model of `state.currentScreen` (line 5). -/
inductive Screen
  | intro
  | diagnostic
  | construction
  | activation
  deriving DecidableEq, Repr

/-- Model of `state.shield` (lines 7–11): the three optional choice values.  The
color is the `parseInt`-ed swatch value, the symbol the image identifier,
the sigil the stored glyph. -/
structure Shield where
  color : Option ℕ
  symbol : Option String
  sigil : Option Glyph
  deriving DecidableEq, Repr

/-- Model of `state.choicesMade` (lines 12–16): the three completion flags. -/
structure ChoicesMade where
  color : Bool
  symbol : Bool
  sigil : Bool
  deriving DecidableEq, Repr

/-- The tracked application state: the `state` object (lines 4–17)
together with the `disabled` property of the activate button, which
`checkConstructionComplete` maintains. -/
structure AppState where
  currentScreen : Screen
  energyType : Option String
  shield : Shield
  choicesMade : ChoicesMade
  activateDisabled : Bool
  deriving DecidableEq, Repr

/-- The completion condition of `checkConstructionComplete` (lines
179–187): all three flags are true. -/
def checkConstructionComplete (c : ChoicesMade) : Bool :=
  c.color && c.symbol && c.sigil

/-- The initial state: `state` literal of lines 4–17 (all screens start at
intro, no choices).  Modelled from the spec: the initial `disabled`
attribute of the activate button lives in `index.html`, which is not part
of the provided sources; per §7 the triggering control starts and remains
disabled until construction is complete, so it starts `true`. -/
def initState : AppState :=
  { currentScreen := .intro
    energyType := none
    shield := ⟨none, none, none⟩
    choicesMade := ⟨false, false, false⟩
    activateDisabled := true }

/-- The user-input events the DOM handlers (lines 232–310) respond to. -/
inductive Event
  | startDiagnostic
  | answer (tag : String)
  | pickColor (c : ℕ)
  | pickSymbol (sym : String)
  | generateSigilClick (word : String)
  | activateClick
  | restartClick

/-- One event-handler execution (lines 232–310), run to completion.  The
activate click is guarded by the button's `disabled` property (a disabled
button fires no click event); every other handler runs unconditionally.
`generateSigilClick` embeds the state-mutating tail of `generateSigil`
(lines 203, 225–228): a blank word returns before any mutation. -/
def step (s : AppState) (e : Event) : AppState :=
  match e with
  | .startDiagnostic => { s with currentScreen := .diagnostic }
  | .answer tag =>
      { s with energyType := some tag, currentScreen := .construction }
  | .pickColor c =>
      let cm := { s.choicesMade with color := true }
      { s with shield := { s.shield with color := some c }
               choicesMade := cm
               activateDisabled := !(checkConstructionComplete cm) }
  | .pickSymbol sym =>
      let cm := { s.choicesMade with symbol := true }
      { s with shield := { s.shield with symbol := some sym }
               choicesMade := cm
               activateDisabled := !(checkConstructionComplete cm) }
  | .generateSigilClick word =>
      if blankWord word then s
      else
        let cm := { s.choicesMade with sigil := true }
        { s with shield := { s.shield with sigil := some ⟨sigilChars word⟩ }
                 choicesMade := cm
                 activateDisabled := !(checkConstructionComplete cm) }
  | .activateClick =>
      if s.activateDisabled then s
      else { s with currentScreen := .activation }
  | .restartClick =>
      { currentScreen := .intro
        energyType := none
        shield := ⟨none, none, none⟩
        choicesMade := ⟨false, false, false⟩
        activateDisabled := true }

/-- Running a sequence of events from the initial state. -/
def run (evs : List Event) : AppState :=
  evs.foldl step initState

/-- A state is reachable when some event sequence produces it. -/
def Reachable (s : AppState) : Prop :=
  ∃ evs : List Event, run evs = s

/-- One orbiting symbol sprite (lines 158–165): the symbol image it
carries, its position, its scale and its material opacity. -/
structure SymbolMarker where
  symbol : String
  pos : ℝ × ℝ × ℝ
  scale : ℚ
  spriteOpacity : ℚ

/-- The rendering state of the shield layers that `updateShieldVisuals`
mutates: the `shieldSphere` material (color, emissive, emissive intensity,
opacity, texture map and its tiling) and the `symbolObjects` list. -/
structure Visuals where
  sphereColor : Option ℕ
  sphereEmissive : Option ℕ
  emissiveIntensity : ℚ
  opacity : ℚ
  sigilMap : Option Glyph
  mapRepeat : Option (ℕ × ℕ)
  symbolMarkers : List SymbolMarker

/-- The angle of marker `i` (line 160): `(i/3) * Math.PI * 2`. -/
noncomputable def markerAngle (i : ℕ) : ℝ :=
  ((i : ℝ) / 3) * (Real.pi * 2)

/-- The fresh marker set built for a chosen symbol (lines 158–165): three
sprites at angles `(i/3)·2π`, positions `(cos·2.2, sin·2.2, 0)`, scale
`0.5`, material opacity `0.8`. -/
noncomputable def newSymbolMarkers (sym : String) : List SymbolMarker :=
  (List.range 3).map (fun i =>
    ⟨sym, (Real.cos (markerAngle i) * 2.2, Real.sin (markerAngle i) * 2.2, 0),
     1/2, 4/5⟩)

/-- The color branch of `updateShieldVisuals` (lines 143–148): when a
color is chosen, tint and emissive become that color, emissive intensity
`0.5`, opacity `0.2`; otherwise the layer is untouched. -/
def colorStep (sh : Shield) (v : Visuals) : Visuals :=
  match sh.color with
  | some c =>
      { v with sphereColor := some c
               sphereEmissive := some c
               emissiveIntensity := 1/2
               opacity := 1/5 }
  | none => v

/-- The symbol branch of `updateShieldVisuals` (lines 151–166): when a
symbol is chosen, the previous marker set is removed and exactly three
fresh markers are installed; otherwise the layer is untouched. -/
noncomputable def symbolStep (sh : Shield) (v : Visuals) : Visuals :=
  match sh.symbol with
  | some sym => { v with symbolMarkers := newSymbolMarkers sym }
  | none => v

/-- The sigil branch of `updateShieldVisuals` (lines 169–176): when a
sigil is stored, it becomes the sphere texture with repeat tiling `(3,2)`
and the opacity is floored at `0.3` via
`Math.max(shieldSphere.material.opacity, 0.3)`. -/
def sigilStep (sh : Shield) (v : Visuals) : Visuals :=
  match sh.sigil with
  | some g =>
      { v with sigilMap := some g
               mapRepeat := some (3, 2)
               opacity := max v.opacity (3/10) }
  | none => v

/-- Model of `updateShieldVisuals` (lines 141–177): the three branches run in
source order — color, then symbol, then sigil. -/
noncomputable def updateShieldVisuals (sh : Shield) (v : Visuals) : Visuals :=
  sigilStep sh (symbolStep sh (colorStep sh v))

/-! ## The inductive invariant of the tracked state -/

/-- Each completion flag agrees with presence of its choice value, and the
activate button's `disabled` property is the negated completion check. -/
def Inv (s : AppState) : Prop :=
  s.choicesMade.color = s.shield.color.isSome ∧
  s.choicesMade.symbol = s.shield.symbol.isSome ∧
  s.choicesMade.sigil = s.shield.sigil.isSome ∧
  s.activateDisabled = !(checkConstructionComplete s.choicesMade)

theorem inv_initState : Inv initState :=
  ⟨rfl, rfl, rfl, rfl⟩

theorem inv_step (s : AppState) (e : Event) (h : Inv s) : Inv (step s e) := by
  obtain ⟨h1, h2, h3, h4⟩ := h
  cases e with
  | startDiagnostic => exact ⟨h1, h2, h3, h4⟩
  | answer tag => exact ⟨h1, h2, h3, h4⟩
  | pickColor c => exact ⟨rfl, h2, h3, rfl⟩
  | pickSymbol sym => exact ⟨h1, rfl, h3, rfl⟩
  | generateSigilClick word =>
      cases hb : blankWord word with
      | true => simpa [step, hb] using ⟨h1, h2, h3, h4⟩
      | false => simpa [step, hb] using ⟨h1, h2, rfl, rfl⟩
  | activateClick =>
      cases hd : s.activateDisabled with
      | true => simpa [step, hd] using ⟨h1, h2, h3, h4⟩
      | false => simpa [step, hd] using ⟨h1, h2, h3, hd ▸ h4⟩
  | restartClick => exact ⟨rfl, rfl, rfl, rfl⟩

theorem inv_foldl (evs : List Event) (s : AppState) (h : Inv s) :
    Inv (evs.foldl step s) := by
  induction evs generalizing s with
  | nil => exact h
  | cons e evs ih => exact ih _ (inv_step s e h)

theorem reachable_inv (s : AppState) (h : Reachable s) : Inv s := by
  obtain ⟨evs, rfl⟩ := h
  exact inv_foldl evs initState inv_initState

/-! ## Claims -/

/-- Claim C1: in every reachable state of the choice tracker, each
completion flag (color, symbol, sigil) is true iff the corresponding
choice value is present, and `checkConstructionComplete` reports complete
iff all three flags — equivalently all three values — are present. -/
theorem C1_completion_flags_invariant (s : AppState) (h : Reachable s) :
    (s.choicesMade.color = s.shield.color.isSome ∧
     s.choicesMade.symbol = s.shield.symbol.isSome ∧
     s.choicesMade.sigil = s.shield.sigil.isSome) ∧
    (checkConstructionComplete s.choicesMade = true ↔
      (s.shield.color.isSome = true ∧ s.shield.symbol.isSome = true ∧
       s.shield.sigil.isSome = true)) := by
  obtain ⟨h1, h2, h3, -⟩ := reachable_inv s h
  refine ⟨⟨h1, h2, h3⟩, ?_⟩
  simp [checkConstructionComplete, h1, h2, h3, and_assoc]

/-- Witness for C1 at the concrete reachable state with only a color
chosen. -/
theorem C1_completion_flags_invariant_witness :
    ((run [Event.pickColor 7]).choicesMade.color =
       (run [Event.pickColor 7]).shield.color.isSome ∧
     (run [Event.pickColor 7]).choicesMade.symbol =
       (run [Event.pickColor 7]).shield.symbol.isSome ∧
     (run [Event.pickColor 7]).choicesMade.sigil =
       (run [Event.pickColor 7]).shield.sigil.isSome) ∧
    (checkConstructionComplete (run [Event.pickColor 7]).choicesMade = true ↔
      ((run [Event.pickColor 7]).shield.color.isSome = true ∧
       (run [Event.pickColor 7]).shield.symbol.isSome = true ∧
       (run [Event.pickColor 7]).shield.sigil.isSome = true)) :=
  C1_completion_flags_invariant (run [Event.pickColor 7])
    ⟨[Event.pickColor 7], rfl⟩

/-- Claim C4: an activate click in a reachable Construction state with some
completion flag still false is rejected — the state is unchanged and the
screen stays Construction (the button is disabled, so the handler does not
run). -/
theorem C4_activate_rejected_when_incomplete (s : AppState)
    (h : Reachable s) (hs : s.currentScreen = Screen.construction)
    (hflag : s.choicesMade.color = false ∨ s.choicesMade.symbol = false ∨
             s.choicesMade.sigil = false) :
    step s Event.activateClick = s ∧
    (step s Event.activateClick).currentScreen = Screen.construction := by
  obtain ⟨-, -, -, h4⟩ := reachable_inv s h
  have hd : s.activateDisabled = true := by
    rw [h4]
    rcases hflag with hf | hf | hf <;> simp [checkConstructionComplete, hf]
  have heq : step s Event.activateClick = s := by simp [step, hd]
  exact ⟨heq, by rw [heq]; exact hs⟩

/-- Witness for C4: in Construction with only a color chosen, the
activate click changes nothing. -/
theorem C4_activate_rejected_when_incomplete_witness :
    step (run [Event.startDiagnostic, Event.answer "fire", Event.pickColor 3])
        Event.activateClick =
      run [Event.startDiagnostic, Event.answer "fire", Event.pickColor 3] ∧
    (step (run [Event.startDiagnostic, Event.answer "fire", Event.pickColor 3])
        Event.activateClick).currentScreen = Screen.construction :=
  C4_activate_rejected_when_incomplete
    (run [Event.startDiagnostic, Event.answer "fire", Event.pickColor 3])
    ⟨[Event.startDiagnostic, Event.answer "fire", Event.pickColor 3], rfl⟩
    rfl (Or.inr (Or.inl rfl))

/-- Claim C8: a restart click from the Activation screen yields, in one
application of `step`, the fully reset state: Intro screen, no energy
type, all three choice values null, all three flags false (and the
activate button disabled again). -/
theorem C8_reset_from_activation (s : AppState)
    (h : s.currentScreen = Screen.activation) :
    step s Event.restartClick =
      { currentScreen := Screen.intro
        energyType := none
        shield := ⟨none, none, none⟩
        choicesMade := ⟨false, false, false⟩
        activateDisabled := true } :=
  rfl

/-- Witness for C8 at a concrete reachable Activation state. -/
theorem C8_reset_from_activation_witness :
    step (run [Event.startDiagnostic, Event.answer "fire", Event.pickColor 3,
               Event.pickSymbol "flame", Event.generateSigilClick "SHIELD",
               Event.activateClick]) Event.restartClick =
      { currentScreen := Screen.intro
        energyType := none
        shield := ⟨none, none, none⟩
        choicesMade := ⟨false, false, false⟩
        activateDisabled := true } :=
  C8_reset_from_activation
    (run [Event.startDiagnostic, Event.answer "fire", Event.pickColor 3,
          Event.pickSymbol "flame", Event.generateSigilClick "SHIELD",
          Event.activateClick])
    (by decide)

/-- Claim C10: a blank or whitespace-only sigil submission leaves the whole
tracked state exactly as it was — in particular, after a prior non-blank
submission the sigil value stays present and its flag stays true. -/
theorem C10_blank_submission_frame (s : AppState) (word : String)
    (h : blankWord word = true) :
    step s (Event.generateSigilClick word) = s := by
  simp [step, h]

/-- Witness for C10: a whitespace-only resubmission after a successful
one changes nothing. -/
theorem C10_blank_submission_frame_witness :
    step (run [Event.pickColor 3, Event.generateSigilClick "HI"])
        (Event.generateSigilClick "   ") =
      run [Event.pickColor 3, Event.generateSigilClick "HI"] :=
  C10_blank_submission_frame
    (run [Event.pickColor 3, Event.generateSigilClick "HI"]) "   "
    (by decide)

/-- The glyph's point list has one point per character. -/
theorem glyph_points_length (width height : ℚ) (g : Glyph) :
    (g.points width height).length = g.chars.length := by
  simp [Glyph.points]

/-- Claim C3: blank and whitespace-only submissions both produce an empty
glyph (zero points on the cleared canvas), and submitting either leaves a
false sigil completion flag false. -/
theorem C3_blank_yields_empty_glyph (width height : ℚ) (s : AppState)
    (h : s.choicesMade.sigil = false) :
    generateSigilGlyph "" = ⟨[]⟩ ∧
    generateSigilGlyph "   " = ⟨[]⟩ ∧
    ((generateSigilGlyph "").points width height).length = 0 ∧
    ((generateSigilGlyph "   ").points width height).length = 0 ∧
    (step s (Event.generateSigilClick "")).choicesMade.sigil = false ∧
    (step s (Event.generateSigilClick "   ")).choicesMade.sigil = false := by
  have h1 : blankWord "" = true := by decide
  have h2 : blankWord "   " = true := by decide
  refine ⟨?_, ?_, ?_, ?_, ?_, ?_⟩
  · simp [generateSigilGlyph, h1]
  · simp [generateSigilGlyph, h2]
  · simp [glyph_points_length, generateSigilGlyph, h1]
  · simp [glyph_points_length, generateSigilGlyph, h2]
  · simp [step, h1, h]
  · simp [step, h2, h]

/-- Witness for C3 in the fresh initial state. -/
theorem C3_blank_yields_empty_glyph_witness :
    generateSigilGlyph "" = ⟨[]⟩ ∧
    generateSigilGlyph "   " = ⟨[]⟩ ∧
    ((generateSigilGlyph "").points 300 300).length = 0 ∧
    ((generateSigilGlyph "   ").points 300 300).length = 0 ∧
    (step initState (Event.generateSigilClick "")).choicesMade.sigil = false ∧
    (step initState (Event.generateSigilClick "   ")).choicesMade.sigil =
      false :=
  C3_blank_yields_empty_glyph 300 300 initState rfl

/-- Claim C6: a non-blank input of `n` characters yields exactly `n` points,
the path is closed iff there are more than two points ("AB" gives 2 points
and an open path, "ABC" gives 3 points and a closed path), and a
single-character input gives one point and no segment. -/
theorem C6_point_count_and_closure (width height : ℚ) (word : String)
    (h : blankWord word = false) :
    ((generateSigilGlyph word).points width height).length =
      word.toList.length ∧
    ((generateSigilGlyph word).closed = true ↔
      2 < ((generateSigilGlyph word).points width height).length) ∧
    (((generateSigilGlyph "AB").points width height).length = 2 ∧
      (generateSigilGlyph "AB").closed = false) ∧
    (((generateSigilGlyph "ABC").points width height).length = 3 ∧
      (generateSigilGlyph "ABC").closed = true) ∧
    (word.toList.length = 1 →
      ((generateSigilGlyph word).points width height).length = 1 ∧
      (generateSigilGlyph word).segments = 0) := by
  have hg : generateSigilGlyph word = ⟨sigilChars word⟩ := by
    simp [generateSigilGlyph, h]
  have hlen : ((generateSigilGlyph word).points width height).length =
      word.toList.length := by
    simp [hg, glyph_points_length, sigilChars]
  refine ⟨hlen, ?_, ?_, ?_, ?_⟩
  · rw [hlen, hg]
    simp [Glyph.closed, sigilChars]
  · constructor
    · rw [glyph_points_length]; decide
    · decide
  · constructor
    · rw [glyph_points_length]; decide
    · decide
  · intro h1
    have h2 : word.length = 1 := h1
    constructor
    · rw [hlen, h1]
    · simp [Glyph.segments, Glyph.closed, hg, sigilChars]
      omega

/-- Witness for C6 at the concrete non-blank input "AB". -/
theorem C6_point_count_and_closure_witness :
    ((generateSigilGlyph "AB").points 300 300).length =
      "AB".toList.length ∧
    ((generateSigilGlyph "AB").closed = true ↔
      2 < ((generateSigilGlyph "AB").points 300 300).length) ∧
    (((generateSigilGlyph "AB").points 300 300).length = 2 ∧
      (generateSigilGlyph "AB").closed = false) ∧
    (((generateSigilGlyph "ABC").points 300 300).length = 3 ∧
      (generateSigilGlyph "ABC").closed = true) ∧
    ("AB".toList.length = 1 →
      ((generateSigilGlyph "AB").points 300 300).length = 1 ∧
      (generateSigilGlyph "AB").segments = 0) :=
  C6_point_count_and_closure 300 300 "AB" (by decide)

/-- The symbol branch never touches the sphere opacity. -/
theorem symbolStep_opacity (sh : Shield) (v : Visuals) :
    (symbolStep sh v).opacity = v.opacity := by
  unfold symbolStep
  cases sh.symbol <;> rfl

/-- The color branch never touches the marker set. -/
theorem colorStep_symbolMarkers (sh : Shield) (v : Visuals) :
    (colorStep sh v).symbolMarkers = v.symbolMarkers := by
  unfold colorStep
  cases sh.color <;> rfl

/-- The sigil branch never touches the marker set. -/
theorem sigilStep_symbolMarkers (sh : Shield) (v : Visuals) :
    (sigilStep sh v).symbolMarkers = v.symbolMarkers := by
  unfold sigilStep
  cases sh.sigil <;> rfl

/-- Claim C5: with a sigil present, the projected base-layer opacity is at
least the floor 0.3, and it is never below the opacity the color (and
symbol) steps produced — the floor raises a lower color opacity and never
lowers a higher one.  With a color also present the color step sets 0.2
and the floor lifts the result to exactly 0.3. -/
theorem C5_opacity_floor (sh : Shield) (v : Visuals) (g : Glyph)
    (h : sh.sigil = some g) :
    3/10 ≤ (updateShieldVisuals sh v).opacity ∧
    (symbolStep sh (colorStep sh v)).opacity ≤
      (updateShieldVisuals sh v).opacity ∧
    (sh.color.isSome = true →
      (symbolStep sh (colorStep sh v)).opacity = 1/5 ∧
      (updateShieldVisuals sh v).opacity = 3/10) := by
  have hfloor : (updateShieldVisuals sh v).opacity =
      max (symbolStep sh (colorStep sh v)).opacity (3/10) := by
    unfold updateShieldVisuals sigilStep
    rw [h]
  refine ⟨?_, ?_, ?_⟩
  · rw [hfloor]; exact le_max_right _ _
  · rw [hfloor]; exact le_max_left _ _
  · intro hc
    obtain ⟨c, hc⟩ := Option.isSome_iff_exists.mp hc
    have h15 : (symbolStep sh (colorStep sh v)).opacity = 1/5 := by
      rw [symbolStep_opacity]
      unfold colorStep
      rw [hc]
    refine ⟨h15, ?_⟩
    rw [hfloor, h15]
    norm_num

/-- Witness for C5 with a concrete shield (color and sigil chosen) and
neutral prior visuals. -/
theorem C5_opacity_floor_witness :
    3/10 ≤ (updateShieldVisuals ⟨some 255, none, some ⟨['A']⟩⟩
        ⟨none, none, 0, 0, none, none, []⟩).opacity ∧
    (symbolStep ⟨some 255, none, some ⟨['A']⟩⟩
        (colorStep ⟨some 255, none, some ⟨['A']⟩⟩
          ⟨none, none, 0, 0, none, none, []⟩)).opacity ≤
      (updateShieldVisuals ⟨some 255, none, some ⟨['A']⟩⟩
        ⟨none, none, 0, 0, none, none, []⟩).opacity ∧
    ((⟨some 255, none, some ⟨['A']⟩⟩ : Shield).color.isSome = true →
      (symbolStep ⟨some 255, none, some ⟨['A']⟩⟩
          (colorStep ⟨some 255, none, some ⟨['A']⟩⟩
            ⟨none, none, 0, 0, none, none, []⟩)).opacity = 1/5 ∧
      (updateShieldVisuals ⟨some 255, none, some ⟨['A']⟩⟩
          ⟨none, none, 0, 0, none, none, []⟩).opacity = 3/10) :=
  C5_opacity_floor ⟨some 255, none, some ⟨['A']⟩⟩
    ⟨none, none, 0, 0, none, none, []⟩ ⟨['A']⟩ rfl

/-- Claim C7: with a symbol chosen, the projection installs exactly three
markers; marker `i` carries the chosen symbol image and sits at angle
`(i/3)·2π` on the fixed-radius circle `2.2`; consecutive marker angles
differ by 120° (2π/3); and the resulting marker set does not depend on the
previous visuals — re-issuing a symbol choice replaces, never appends. -/
theorem C7_symbol_markers (sh : Shield) (v : Visuals) (sym : String)
    (h : sh.symbol = some sym) :
    (updateShieldVisuals sh v).symbolMarkers.length = 3 ∧
    (∀ i (hi : i < (updateShieldVisuals sh v).symbolMarkers.length),
      (updateShieldVisuals sh v).symbolMarkers[i] =
        ⟨sym, (Real.cos (markerAngle i) * 2.2,
               Real.sin (markerAngle i) * 2.2, 0), 1/2, 4/5⟩) ∧
    (∀ i (hi : i < (updateShieldVisuals sh v).symbolMarkers.length),
      ((updateShieldVisuals sh v).symbolMarkers[i].pos.1) ^ 2 +
        ((updateShieldVisuals sh v).symbolMarkers[i].pos.2.1) ^ 2 =
        2.2 ^ 2) ∧
    (∀ i : ℕ, markerAngle (i + 1) - markerAngle i = Real.pi * 2 / 3) ∧
    (∀ v' : Visuals, (updateShieldVisuals sh v').symbolMarkers =
      (updateShieldVisuals sh v).symbolMarkers) := by
  have hm : ∀ w : Visuals, (updateShieldVisuals sh w).symbolMarkers =
      newSymbolMarkers sym := by
    intro w
    rw [updateShieldVisuals, sigilStep_symbolMarkers]
    unfold symbolStep
    rw [h]
  have hget : ∀ i (hi : i < (updateShieldVisuals sh v).symbolMarkers.length),
      (updateShieldVisuals sh v).symbolMarkers[i] =
        ⟨sym, (Real.cos (markerAngle i) * 2.2,
               Real.sin (markerAngle i) * 2.2, 0), 1/2, 4/5⟩ := by
    intro i hi
    have hi' : i < 3 := by
      simpa [hm v, newSymbolMarkers] using hi
    simp [hm v, newSymbolMarkers, List.getElem_map, List.getElem_range, hi']
  refine ⟨by simp [hm v, newSymbolMarkers], hget, ?_, ?_, fun v' => by
    rw [hm v', hm v]⟩
  · intro i hi
    rw [hget i hi]
    have hpyth := Real.cos_sq_add_sin_sq (markerAngle i)
    ring_nf
    nlinarith [hpyth]
  · intro i
    unfold markerAngle
    push_cast
    field_simp
    ring

/-- Witness for C7 with a concrete shield and neutral prior visuals. -/
theorem C7_symbol_markers_witness :
    (updateShieldVisuals ⟨none, some "flame", none⟩
        ⟨none, none, 0, 0, none, none, []⟩).symbolMarkers.length = 3 ∧
    (∀ i (hi : i < (updateShieldVisuals ⟨none, some "flame", none⟩
        ⟨none, none, 0, 0, none, none, []⟩).symbolMarkers.length),
      (updateShieldVisuals ⟨none, some "flame", none⟩
          ⟨none, none, 0, 0, none, none, []⟩).symbolMarkers[i] =
        ⟨"flame", (Real.cos (markerAngle i) * 2.2,
                   Real.sin (markerAngle i) * 2.2, 0), 1/2, 4/5⟩) ∧
    (∀ i (hi : i < (updateShieldVisuals ⟨none, some "flame", none⟩
        ⟨none, none, 0, 0, none, none, []⟩).symbolMarkers.length),
      ((updateShieldVisuals ⟨none, some "flame", none⟩
          ⟨none, none, 0, 0, none, none, []⟩).symbolMarkers[i].pos.1) ^ 2 +
        ((updateShieldVisuals ⟨none, some "flame", none⟩
          ⟨none, none, 0, 0, none, none, []⟩).symbolMarkers[i].pos.2.1) ^ 2 =
        2.2 ^ 2) ∧
    (∀ i : ℕ, markerAngle (i + 1) - markerAngle i = Real.pi * 2 / 3) ∧
    (∀ v' : Visuals, (updateShieldVisuals ⟨none, some "flame", none⟩
        v').symbolMarkers =
      (updateShieldVisuals ⟨none, some "flame", none⟩
        ⟨none, none, 0, 0, none, none, []⟩).symbolMarkers) :=
  C7_symbol_markers ⟨none, some "flame", none⟩
    ⟨none, none, 0, 0, none, none, []⟩ "flame" rfl

/-- The JavaScript remainder by 10 always lies in `[-9, 9]`. -/
theorem jsRem_ten_bounds (a : Int) : -9 ≤ jsRem a 10 ∧ jsRem a 10 ≤ 9 := by
  unfold jsRem
  split
  · have h1 : 0 ≤ a % 10 := Int.emod_nonneg a (by norm_num)
    have h2 : a % 10 < 10 := Int.emod_lt_of_pos a (by norm_num)
    omega
  · have h1 : 0 ≤ (-a) % 10 := Int.emod_nonneg (-a) (by norm_num)
    have h2 : (-a) % 10 < 10 := Int.emod_lt_of_pos (-a) (by norm_num)
    omega

/-- Bounds on the radius factor and radius of any character's point, for
a canvas wider than 20: factor in `[0.05, 0.95]`, radius positive and at
most `0.95 · (width/2 − 10)`. -/
theorem sigilRadius_bounds (width : ℚ) (hw : 20 < width) (c : Char) :
    -9 ≤ jsRem (sigilCharCode c) 10 ∧ jsRem (sigilCharCode c) 10 ≤ 9 ∧
    1/20 ≤ (jsRem (sigilCharCode c) 10 : ℚ) / 10 * (1/2) + 1/2 ∧
    (jsRem (sigilCharCode c) 10 : ℚ) / 10 * (1/2) + 1/2 ≤ 19/20 ∧
    0 < sigilRadius width c ∧
    sigilRadius width c ≤ 19/20 * (width / 2 - 10) := by
  obtain ⟨hm1, hm2⟩ := jsRem_ten_bounds (sigilCharCode c)
  have hq1 : (-9 : ℚ) ≤ (jsRem (sigilCharCode c) 10 : ℚ) := by
    exact_mod_cast hm1
  have hq2 : (jsRem (sigilCharCode c) 10 : ℚ) ≤ 9 := by exact_mod_cast hm2
  have hf1 : 1/20 ≤ (jsRem (sigilCharCode c) 10 : ℚ) / 10 * (1/2) + 1/2 := by
    linarith
  have hf2 : (jsRem (sigilCharCode c) 10 : ℚ) / 10 * (1/2) + 1/2 ≤ 19/20 := by
    linarith
  have hd : (0 : ℚ) < width / 2 - 10 := by linarith
  refine ⟨hm1, hm2, hf1, hf2, ?_, ?_⟩
  · unfold sigilRadius
    exact mul_pos hd (by linarith)
  · unfold sigilRadius
    nlinarith

/-- Claim C9: for every point of a glyph generated from a non-blank input
on a canvas wider than 20, the JavaScript remainder `(charCode − 65) % 10`
lies in `[-9, 9]`, the radius factor lies in `[0.05, 0.95]`, the radius is
strictly positive and at most `0.95 · (width/2 − 10)`, and the point lies
strictly inside the circle of radius `width/2 − 10` around the canvas
centre. -/
theorem C9_points_inside_circle (width height : ℚ) (word : String)
    (hw : 20 < width) (hword : blankWord word = false) (i : ℕ)
    (hi : i < ((generateSigilGlyph word).points width height).length) :
    (∀ c : Char,
      -9 ≤ jsRem (sigilCharCode c) 10 ∧ jsRem (sigilCharCode c) 10 ≤ 9 ∧
      1/20 ≤ (jsRem (sigilCharCode c) 10 : ℚ) / 10 * (1/2) + 1/2 ∧
      (jsRem (sigilCharCode c) 10 : ℚ) / 10 * (1/2) + 1/2 ≤ 19/20 ∧
      0 < sigilRadius width c ∧
      sigilRadius width c ≤ 19/20 * (width / 2 - 10)) ∧
    (((generateSigilGlyph word).pointAt width height i).x -
        (width : ℝ) / 2) ^ 2 +
      (((generateSigilGlyph word).pointAt width height i).y -
        (height : ℝ) / 2) ^ 2 < ((width : ℝ) / 2 - 10) ^ 2 := by
  refine ⟨fun c => sigilRadius_bounds width hw c, ?_⟩
  have hg : generateSigilGlyph word = ⟨sigilChars word⟩ := by
    simp [generateSigilGlyph, hword]
  have hi' : i < (sigilChars word).length := by
    simpa [hg, glyph_points_length] using hi
  have hpoint : (generateSigilGlyph word).pointAt width height i =
      sigilPoint width height (sigilChars word).length i
        ((sigilChars word).get ⟨i, hi'⟩) := by
    rw [Glyph.pointAt, List.getD_eq_getElem _ _ hi]
    simp [hg, Glyph.points]
  rw [hpoint]
  obtain ⟨-, -, -, -, hr0, hr1⟩ :=
    sigilRadius_bounds width hw ((sigilChars word).get ⟨i, hi'⟩)
  have hrq : sigilRadius width ((sigilChars word).get ⟨i, hi'⟩) <
      width / 2 - 10 := by nlinarith
  have hr0R : (0 : ℝ) <
      (sigilRadius width ((sigilChars word).get ⟨i, hi'⟩) : ℝ) := by
    exact_mod_cast hr0
  have hr1R : (sigilRadius width ((sigilChars word).get ⟨i, hi'⟩) : ℝ) <
      (width : ℝ) / 2 - 10 := by
    have h2 : ((sigilRadius width ((sigilChars word).get ⟨i, hi'⟩) : ℚ) : ℝ) <
        ((width / 2 - 10 : ℚ) : ℝ) := by exact_mod_cast hrq
    push_cast at h2
    linarith
  simp only [sigilPoint]
  have hpyth := Real.cos_sq_add_sin_sq (sigilAngle i (sigilChars word).length)
  nlinarith [hpyth, mul_pos hr0R hr0R,
    mul_self_lt_mul_self hr0R.le hr1R,
    sq_nonneg (Real.cos (sigilAngle i (sigilChars word).length)),
    sq_nonneg (Real.sin (sigilAngle i (sigilChars word).length))]

/-- Witness for C9 on a 300×300 canvas with the input "A B" (the space
exercises a negative derived value), at point index 0. -/
theorem C9_points_inside_circle_witness :
    (∀ c : Char,
      -9 ≤ jsRem (sigilCharCode c) 10 ∧ jsRem (sigilCharCode c) 10 ≤ 9 ∧
      1/20 ≤ (jsRem (sigilCharCode c) 10 : ℚ) / 10 * (1/2) + 1/2 ∧
      (jsRem (sigilCharCode c) 10 : ℚ) / 10 * (1/2) + 1/2 ≤ 19/20 ∧
      0 < sigilRadius 300 c ∧
      sigilRadius 300 c ≤ 19/20 * ((300 : ℚ) / 2 - 10)) ∧
    (((generateSigilGlyph "A B").pointAt 300 300 0).x -
        ((300 : ℚ) : ℝ) / 2) ^ 2 +
      (((generateSigilGlyph "A B").pointAt 300 300 0).y -
        ((300 : ℚ) : ℝ) / 2) ^ 2 < (((300 : ℚ) : ℝ) / 2 - 10) ^ 2 :=
  C9_points_inside_circle 300 300 "A B" (by norm_num) (by decide) 0
    (by rw [glyph_points_length]; decide)

/-- The cast of the rational radius to the reals, in the spec's form
`(half-canvas-size − margin) · (0.5 + 0.5 · ((value rem 10) / 10))`. -/
theorem sigilRadius_cast (width : ℚ) (c : Char) :
    ((sigilRadius width c : ℚ) : ℝ) =
      ((width : ℝ) / 2 - 10) *
        (1/2 + 1/2 * ((jsRem ((c.toNat : Int) - 65) 10 : ℝ) / 10)) := by
  unfold sigilRadius sigilCharCode
  push_cast
  ring

/-- Claim C2: for a non-blank input the generated point sequence is, per
character `c` at index `i` of `n`, the canvas centre offset by
`(cos(angle)·radius, sin(angle)·radius)` with `angle = (i/n)·2π`, the
character value `charCode − 65` (possibly negative or large for
non-letters), and `radius = (width/2 − 10)·(0.5 + 0.5·((value mod 10)/10))`
— "mod" being the code's JavaScript remainder `%`. -/
theorem C2_sigil_point_formula (width height : ℚ) (word : String)
    (h : blankWord word = false) :
    (generateSigilGlyph word).points width height =
      (sigilChars word).mapIdx (fun i c =>
        ⟨(width : ℝ) / 2 +
            Real.cos (((i : ℝ) / ((sigilChars word).length : ℝ)) *
                (2 * Real.pi)) *
              (((width : ℝ) / 2 - 10) *
                (1/2 + 1/2 * ((jsRem ((c.toNat : Int) - 65) 10 : ℝ) / 10))),
          (height : ℝ) / 2 +
            Real.sin (((i : ℝ) / ((sigilChars word).length : ℝ)) *
                (2 * Real.pi)) *
              (((width : ℝ) / 2 - 10) *
                (1/2 + 1/2 *
                  ((jsRem ((c.toNat : Int) - 65) 10 : ℝ) / 10)))⟩) := by
  have hg : generateSigilGlyph word = ⟨sigilChars word⟩ := by
    simp [generateSigilGlyph, h]
  rw [hg]
  unfold Glyph.points
  apply List.ext_getElem (by simp)
  intro i h1 h2
  simp only [List.getElem_mapIdx]
  have hang : sigilAngle i (sigilChars word).length =
      ((i : ℝ) / ((sigilChars word).length : ℝ)) * (2 * Real.pi) := by
    unfold sigilAngle; ring
  unfold sigilPoint
  rw [Point.mk.injEq]
  constructor <;> rw [hang, sigilRadius_cast]

/-- Witness for C2 on a 300×300 canvas with the input "A B". -/
theorem C2_sigil_point_formula_witness :
    (generateSigilGlyph "A B").points 300 300 =
      (sigilChars "A B").mapIdx (fun i c =>
        ⟨((300 : ℚ) : ℝ) / 2 +
            Real.cos (((i : ℝ) / ((sigilChars "A B").length : ℝ)) *
                (2 * Real.pi)) *
              ((((300 : ℚ) : ℝ) / 2 - 10) *
                (1/2 + 1/2 * ((jsRem ((c.toNat : Int) - 65) 10 : ℝ) / 10))),
          ((300 : ℚ) : ℝ) / 2 +
            Real.sin (((i : ℝ) / ((sigilChars "A B").length : ℝ)) *
                (2 * Real.pi)) *
              ((((300 : ℚ) : ℝ) / 2 - 10) *
                (1/2 + 1/2 *
                  ((jsRem ((c.toNat : Int) - 65) 10 : ℝ) / 10)))⟩) :=
  C2_sigil_point_formula 300 300 "A B" (by decide)

end AuricShield
